import Mathlib

/-!
Verification of the TeddyBear voice-assistant repository.

Part 1 embeds the backend relay bridge of `src/server.js`
(`processAudioWithOpenAI` and the `/process-audio` route) as an explicit
state machine over the sequence of WebSocket events delivered to the
handlers registered on the socket.  JavaScript promises settle at most
once; that runtime behaviour is embedded by `settle`, which keeps the
first outcome.

Part 2 (below) embeds the browser voice-activity segmenter of the
client script (`onaudioprocess`, `concatenateFloat32Arrays`,
`float32To16BitPCM`).  Audio samples are modelled as exact rationals;
the JS comparison `Math.sqrt(sum / n) > SILENCE_THRESHOLD` is embedded
as the equivalent (by monotonicity of the square root on nonnegative
reals) polynomial comparison `SILENCE_THRESHOLD ^ 2 * n < sum`, which
also agrees with the JS behaviour on the empty frame, where
`sum / n` is `NaN` and the comparison is false.
-/

deriving instance DecidableEq for Except

namespace Relay

/-- Inbound protocol events, as dispatched by the `ws.on('message')`
handler of `src/server.js` after `JSON.parse`.  `audioDelta` carries the
optional `event.delta` field; `errorEvent` carries the optional
`event.message` and `event.reason` fields.  `other` stands for any event
type the handler does not recognise (including `response.text.delta`,
which the code explicitly ignores). -/
inductive Event
  | sessionCreated
  | audioDelta (delta : Option String)
  | textDelta
  | responseDone
  | errorEvent (message reason : Option String)
  | other
deriving DecidableEq, Repr

/-- The three outbound configuration messages sent on `session.created`. -/
inductive OutMsg
  | sessionUpdate
  | conversationItemCreate
  | responseCreate
deriving DecidableEq, Repr

/-- WebSocket ready states used by the code (`WebSocket.CONNECTING`,
`WebSocket.OPEN`); `CLOSED` covers the closing/closed states. -/
inductive ReadyState
  | CONNECTING
  | OPEN
  | CLOSED
deriving DecidableEq, Repr

/-- Events delivered to the handlers of one relay exchange: the socket
`open` event, a parsed `message` event, a socket `error`, the socket
`close` event, and the 30-second watchdog timer firing. -/
inductive WireEvent
  | wsOpen
  | msg (e : Event)
  | wsError (err : String)
  | wsClosed
  | timerFire
deriving DecidableEq, Repr

/-- State of one `processAudioWithOpenAI` exchange: the fields of the
closure in `src/server.js` lines 89-99, together with the socket state,
the code our side closed the socket with (if any), the outbound messages
sent so far, and the promise outcome (`none` while pending). -/
structure RelayState where
  chunks : List String
  isSessionConfigured : Bool
  hasReceivedData : Bool
  timerActive : Bool
  wsState : ReadyState
  closeCode : Option Nat
  sent : List OutMsg
  outcome : Option (Except String String)
deriving DecidableEq, Repr

/-- A JS promise settles at most once: `resolve`/`reject` after the
first settlement are no-ops. -/
def settle (o : Option (Except String String)) (v : Except String String) :
    Option (Except String String) :=
  match o with
  | some x => some x
  | none => some v

/-- `chunks.join('')` of `src/server.js` line 157: ordered string
concatenation. -/
def strJoin : List String → String
  | [] => ""
  | x :: xs => x ++ strJoin xs

/-- JavaScript falsy coalescing `a || d` on an optional string field:
falls through to `d` both when the field is absent and when it is the
empty string (the empty string is falsy in JS). -/
def jsStringOr : Option String → String → String
  | some s, d => if s = "" then d else s
  | none, d => d

/-- `ws.close(code, reason)`: a no-op on an already closed socket,
otherwise records the close code and closes. -/
def wsClose (s : RelayState) (code : Nat) : RelayState :=
  if s.wsState = ReadyState.CLOSED then s
  else { s with wsState := ReadyState.CLOSED, closeCode := some code }

/-- Initial state of one exchange (`src/server.js` lines 89-99): no
chunks, session not configured, no data received, watchdog armed,
socket connecting, promise pending. -/
def relayInit : RelayState :=
  { chunks := []
    isSessionConfigured := false
    hasReceivedData := false
    timerActive := true
    wsState := ReadyState.CONNECTING
    closeCode := none
    sent := []
    outcome := none }

/-- One step of the relay exchange: the handler bodies of
`src/server.js`.
* `wsOpen` (lines 101-104): clears the watchdog timer.
* `msg` (lines 106-179): sets `hasReceivedData`, then dispatches on the
  event type.  `session.created` sends the three configuration messages
  exactly once, guarded by `isSessionConfigured`.  `response.audio.delta`
  appends `event.delta` when it is truthy (a non-empty string).
  `response.done` closes with code 1000 when open and resolves with the
  joined chunks.  `error`/`session.error` closes with code 1011 when
  open and rejects with `event.message || event.reason ||
  'Unknown API error'`, where `||` falls through on an absent *or
  empty-string* field (JS falsiness, embedded by `jsStringOr`).
  Everything else is ignored.
* `wsError` (lines 181-185): clears the timer and rejects.
* `wsClosed` (lines 187-198): clears the timer; the socket is closed.
* `timerFire` (lines 93-99): only a still-armed timer can fire; firing
  consumes it; the handler acts only when the socket is still connecting
  or is open without any received data, in which case it closes the
  socket and rejects with the timeout message. -/
def relayStep (s : RelayState) (ev : WireEvent) : RelayState :=
  match ev with
  | WireEvent.wsOpen =>
      { s with timerActive := false, wsState := ReadyState.OPEN }
  | WireEvent.msg e =>
      let s := { s with hasReceivedData := true }
      match e with
      | Event.sessionCreated =>
          if s.isSessionConfigured then s
          else
            { s with
                isSessionConfigured := true
                sent := s.sent ++
                  [OutMsg.sessionUpdate, OutMsg.conversationItemCreate,
                   OutMsg.responseCreate] }
      | Event.audioDelta d =>
          match d with
          | some str => if str = "" then s else { s with chunks := s.chunks ++ [str] }
          | none => s
      | Event.textDelta => s
      | Event.responseDone =>
          let s' := if s.wsState = ReadyState.OPEN then wsClose s 1000 else s
          { s' with outcome := settle s'.outcome (Except.ok (strJoin s'.chunks)) }
      | Event.errorEvent message reason =>
          let m := jsStringOr message (jsStringOr reason "Unknown API error")
          let s' := if s.wsState = ReadyState.OPEN then wsClose s 1011 else s
          { s' with outcome := settle s'.outcome (Except.error ("OpenAI API Error: " ++ m)) }
      | Event.other => s
  | WireEvent.wsError err =>
      { s with timerActive := false, outcome := settle s.outcome (Except.error err) }
  | WireEvent.wsClosed =>
      { s with timerActive := false, wsState := ReadyState.CLOSED }
  | WireEvent.timerFire =>
      if s.timerActive then
        let s' := { s with timerActive := false }
        if s'.wsState = ReadyState.CONNECTING ∨
            (s'.wsState = ReadyState.OPEN ∧ s'.hasReceivedData = false) then
          let s'' := wsClose s' 1000
          { s'' with
              outcome := settle s''.outcome
                (Except.error "Timeout: OpenAI Realtime API connection or initial data timeout") }
        else s'
      else s

/-- Run one relay exchange over a sequence of wire events. -/
def relayRun (events : List WireEvent) : RelayState :=
  events.foldl relayStep relayInit

/-- JSON bodies produced by the `/process-audio` route. -/
inductive Body
  | errorBody (error : String)
  | errorDetails (error details : String)
  | audioBody (audio : String)
deriving DecidableEq, Repr

structure HttpResponse where
  status : Nat
  body : Body
deriving DecidableEq, Repr

/-- Result of one `/process-audio` request: the HTTP response (`none`
when the handler never responds because the relay promise never
settles) and whether a relay WebSocket session was opened. -/
structure RequestResult where
  response : Option HttpResponse
  relayOpened : Bool
deriving DecidableEq, Repr

/-- The `/process-audio` route of `src/server.js` lines 34-62: a falsy
`audio` field (absent or the empty string) is rejected with HTTP 400
before any relay session is created; otherwise the relay exchange runs
and its outcome is returned as HTTP 200 `{audio}` on success or HTTP 500
`{error, details}` on rejection. -/
def handleRequest (audio : Option String) (events : List WireEvent) : RequestResult :=
  match audio with
  | none =>
      { response := some ⟨400, Body.errorBody "Dados de áudio não fornecidos"⟩
        relayOpened := false }
  | some a =>
      if a = "" then
        { response := some ⟨400, Body.errorBody "Dados de áudio não fornecidos"⟩
          relayOpened := false }
      else
        match (relayRun events).outcome with
        | some (Except.ok payload) =>
            { response := some ⟨200, Body.audioBody payload⟩, relayOpened := true }
        | some (Except.error m) =>
            { response := some ⟨500, Body.errorDetails "Erro interno ao processar áudio" m⟩
              relayOpened := true }
        | none => { response := none, relayOpened := true }

/-- The three configuration messages, in the order the code sends them. -/
def configMessages : List OutMsg :=
  [OutMsg.sessionUpdate, OutMsg.conversationItemCreate, OutMsg.responseCreate]

/-- A normal exchange: the socket opens, the session is created, the
fragments `fs` arrive as `response.audio.delta` events, and the
exchange terminates with `response.done`. -/
def deltaTrace (fs : List String) : List WireEvent :=
  [WireEvent.wsOpen, WireEvent.msg Event.sessionCreated] ++
    fs.map (fun f => WireEvent.msg (Event.audioDelta (some f))) ++
    [WireEvent.msg Event.responseDone]

/-- A failing exchange: the socket opens, the session is created, and
the service then emits an `error` event carrying message `m`. -/
def errTrace (m : String) : List WireEvent :=
  [WireEvent.wsOpen, WireEvent.msg Event.sessionCreated,
   WireEvent.msg (Event.errorEvent (some m) none)]

end Relay

namespace Segmenter

/-- `SILENCE_THRESHOLD = 0.01` of the client script. -/
def SILENCE_THRESHOLD : ℚ := 1 / 100

/-- `SPEECH_TIMEOUT_MS = 1500` of the client script. -/
def SPEECH_TIMEOUT_MS : ℤ := 1500

/-- Sum of squared samples of one frame (the loop computing `sum` in
`onaudioprocess`). -/
def sumSquares (f : List ℚ) : ℚ :=
  (f.map (fun x => x * x)).sum

/-- The speech test `Math.sqrt(sum / n) > SILENCE_THRESHOLD`, embedded
as the equivalent polynomial comparison over exact rationals (both
sides of the original comparison are nonnegative, and for the empty
frame `sum / n` is `NaN`, for which the JS comparison is false, as
here). -/
def frameIsSpeech (f : List ℚ) : Bool :=
  decide (SILENCE_THRESHOLD ^ 2 * (f.length : ℚ) < sumSquares f)

/-- State of the client segmenter: the module-level mutable variables
of the client script that `onaudioprocess` and `sendAudioToServer`
touch, plus the list of utterances handed to `sendAudioToServer` so
far (most recent last). -/
structure SegState where
  recordingBuffer : List (List ℚ)
  lastSpeechTime : ℤ
  isListening : Bool
  isSpeaking : Bool
  emitted : List (List ℚ)
deriving DecidableEq, Repr

/-- Segmenter state right after `startListening` succeeds. -/
def initSeg : SegState :=
  { recordingBuffer := []
    lastSpeechTime := 0
    isListening := true
    isSpeaking := false
    emitted := [] }

/-- One `onaudioprocess` callback on a frame arriving at time `t`
(`Date.now()`):
* while `isSpeaking` is set or listening has stopped, the frame is
  dropped entirely;
* a frame whose RMS exceeds the threshold is appended to the buffer and
  refreshes `lastSpeechTime`;
* otherwise, when the buffer is non-empty and more than
  `SPEECH_TIMEOUT_MS` has elapsed since the last speech, the buffered
  frames are concatenated, the buffer is cleared, and a non-empty
  concatenation is handed to `sendAudioToServer`, which sets
  `isSpeaking` synchronously. -/
def segStep (s : SegState) (t : ℤ) (frame : List ℚ) : SegState :=
  if s.isSpeaking || !s.isListening then s
  else if frameIsSpeech frame then
    { s with recordingBuffer := s.recordingBuffer ++ [frame], lastSpeechTime := t }
  else if 0 < s.recordingBuffer.length ∧ SPEECH_TIMEOUT_MS < t - s.lastSpeechTime then
    let completeAudio := s.recordingBuffer.flatten
    if 0 < completeAudio.length then
      { s with
          recordingBuffer := []
          emitted := s.emitted ++ [completeAudio]
          isSpeaking := true }
    else
      { s with recordingBuffer := [] }
  else s

/-- Run the segmenter from the initial state over a sequence of
timestamped frames. -/
def segRun (trace : List (ℤ × List ℚ)) : SegState :=
  trace.foldl (fun s p => segStep s p.1 p.2) initSeg

/-- Timestamp of the last element of a timestamped frame list, with
default `d` for the empty list. -/
def lastTimeD (d : ℤ) : List (ℤ × List ℚ) → ℤ
  | [] => d
  | p :: ps => lastTimeD p.1 ps

/-- Truncation toward zero, as JavaScript's integer conversion applies
to a number being stored into an `Int16Array`. -/
def truncQ (q : ℚ) : ℤ :=
  if q < 0 then Int.ceil q else Int.floor q

/-- The per-sample body of `float32To16BitPCM`: clamp to `[-1, 1]`,
then scale negatives by `0x8000` and non-negatives by `0x7FFF`. -/
def pcmClampScale (x : ℚ) : ℚ :=
  let s := max (-1) (min 1 x)
  if s < 0 then s * 32768 else s * 32767

/-- Storing into an `Int16Array` truncates toward zero and wraps
modulo `2 ^ 16` into the signed 16-bit range. -/
def toInt16 (q : ℚ) : ℤ :=
  (truncQ q + 32768) % 65536 - 32768

/-- `float32To16BitPCM` of the client script. -/
def float32To16BitPCM (a : List ℚ) : List ℤ :=
  a.map (fun x => toInt16 (pcmClampScale x))

end Segmenter

open Relay Segmenter

/-! ### Helper lemmas about the relay step -/

/-- A settled outcome is preserved by `settle`. -/
lemma settle_of_some {o : Except String String} {v : Except String String} :
    settle (some o) v = some o := rfl

/-- `wsClose` never touches the promise outcome. -/
lemma wsClose_outcome (s : RelayState) (code : Nat) :
    (wsClose s code).outcome = s.outcome := by
  unfold wsClose
  split <;> rfl

/-- No handler overwrites an already settled outcome: every write goes
through `settle`, which keeps the first settlement. -/
lemma relayStep_settled (s : RelayState) (ev : WireEvent)
    (o : Except String String) (h : s.outcome = some o) :
    (relayStep s ev).outcome = some o := by
  obtain ⟨c, cfg, hrd, ta, ws, cc, st, oc⟩ := s
  have h' : oc = some o := h
  subst h'
  cases ev with
  | wsOpen => rfl
  | wsError err => rfl
  | wsClosed => rfl
  | timerFire =>
    simp only [relayStep, wsClose]
    split_ifs <;> rfl
  | msg e =>
    cases e with
    | sessionCreated =>
      simp only [relayStep]
      split_ifs <;> rfl
    | audioDelta d =>
      cases d with
      | none => rfl
      | some str =>
        simp only [relayStep]
        split_ifs <;> rfl
    | textDelta => rfl
    | responseDone =>
      simp only [relayStep, wsClose]
      split_ifs <;> rfl
    | errorEvent m r =>
      simp only [relayStep, wsClose]
      split_ifs <;> rfl
    | other => rfl

/-- A settled outcome is preserved by any further sequence of events. -/
lemma relayFold_settled (l : List WireEvent) (s : RelayState)
    (o : Except String String) (h : s.outcome = some o) :
    (l.foldl relayStep s).outcome = some o := by
  induction l generalizing s with
  | nil => exact h
  | cons ev l ih => exact ih _ (relayStep_settled s ev o h)

/-- One step preserves the configuration invariant: either the session
is not yet configured and nothing has been sent, or it is configured
and exactly the three configuration messages have been sent, in order. -/
lemma relayStep_sent_inv (s : RelayState) (ev : WireEvent)
    (h : (s.isSessionConfigured = false ∧ s.sent = []) ∨
      (s.isSessionConfigured = true ∧ s.sent = configMessages)) :
    ((relayStep s ev).isSessionConfigured = false ∧ (relayStep s ev).sent = []) ∨
      ((relayStep s ev).isSessionConfigured = true ∧ (relayStep s ev).sent = configMessages) := by
  obtain ⟨c, cfg, hrd, ta, ws, cc, st, oc⟩ := s
  cases ev with
  | wsOpen => exact h
  | wsError err => exact h
  | wsClosed => exact h
  | timerFire =>
    simp only [relayStep, wsClose]
    split_ifs <;> exact h
  | msg e =>
    cases e with
    | sessionCreated =>
      simp only [relayStep]
      split_ifs with hc
      · exact h
      · rcases h with ⟨hcfg, hst⟩ | ⟨hcfg, hst⟩
        · right
          refine ⟨rfl, ?_⟩
          have hst' : st = [] := hst
          simp [hst', configMessages]
        · exact absurd hcfg hc
    | audioDelta d =>
      cases d with
      | none => exact h
      | some str =>
        simp only [relayStep]
        split_ifs <;> exact h
    | textDelta => exact h
    | responseDone =>
      simp only [relayStep, wsClose]
      split_ifs <;> exact h
    | errorEvent m r =>
      simp only [relayStep, wsClose]
      split_ifs <;> exact h
    | other => exact h

/-- The configuration invariant is preserved by any event sequence. -/
lemma relayFold_sent_inv (l : List WireEvent) (s : RelayState)
    (h : (s.isSessionConfigured = false ∧ s.sent = []) ∨
      (s.isSessionConfigured = true ∧ s.sent = configMessages)) :
    (((l.foldl relayStep s).isSessionConfigured = false ∧ (l.foldl relayStep s).sent = []) ∨
      ((l.foldl relayStep s).isSessionConfigured = true ∧
        (l.foldl relayStep s).sent = configMessages)) := by
  induction l generalizing s with
  | nil => exact h
  | cons ev l ih => exact ih _ (relayStep_sent_inv s ev h)

/-! ### C3 -/

/-- C3: for every sequence of inbound events, including duplicate
`session.created` events, the relay sends the three session-configuring
messages (`session.update`, then `conversation.item.create`, then
`response.create`, in that fixed order) at most once per session:
after any event sequence the sent list is either empty or exactly that
ordered triple. -/
theorem relay_config_messages_at_most_once (events : List WireEvent) :
    (relayRun events).sent = [] ∨ (relayRun events).sent = configMessages := by
  rcases relayFold_sent_inv events relayInit (Or.inl ⟨rfl, rfl⟩) with ⟨_, h⟩ | ⟨_, h⟩
  · exact Or.inl h
  · exact Or.inr h

/-! ### C2 -/

/-- State of the exchange after the socket opens and `session.created`
is processed. -/
lemma relay_after_handshake :
    relayRun [WireEvent.wsOpen, WireEvent.msg Event.sessionCreated] =
      { chunks := [], isSessionConfigured := true, hasReceivedData := true,
        timerActive := false, wsState := ReadyState.OPEN, closeCode := none,
        sent := configMessages, outcome := none } := rfl

/-- Folding the delta events over a configured open session appends
exactly the non-empty fragments, in order, and changes nothing else. -/
lemma relay_delta_fold (fs : List String) (c : List String) :
    (fs.map (fun f => WireEvent.msg (Event.audioDelta (some f)))).foldl relayStep
      { chunks := c, isSessionConfigured := true, hasReceivedData := true,
        timerActive := false, wsState := ReadyState.OPEN, closeCode := none,
        sent := configMessages, outcome := none } =
      { chunks := c ++ fs.filter (fun f => !(f == "")), isSessionConfigured := true,
        hasReceivedData := true, timerActive := false, wsState := ReadyState.OPEN,
        closeCode := none, sent := configMessages, outcome := none } := by
  induction fs generalizing c with
  | nil => simp
  | cons f fs ih =>
    simp only [List.map_cons, List.foldl_cons, relayStep, List.filter_cons]
    by_cases hf : f = ""
    · subst hf
      simpa using ih c
    · simpa [hf, List.append_assoc] using ih (c ++ [f])

/-- Dropping empty strings does not change the concatenation. -/
lemma strJoin_filter_ne_empty (fs : List String) :
    strJoin (fs.filter (fun f => !(f == ""))) = strJoin fs := by
  induction fs with
  | nil => rfl
  | cons f fs ih =>
    by_cases hf : f = ""
    · subst hf
      simp [List.filter_cons, strJoin, ih, String.empty_append]
    · simp [List.filter_cons, hf, strJoin, ih]

/-- C2: for every ordered sequence of `response.audio.delta` fragments
received before the terminal `response.done`, the relay resolves with
exactly their concatenation in arrival order, with no reordering or
deduplication; in particular the deltas `"AAA"` then `"BBB"` followed
by `response.done` produce HTTP 200 with body `{audio: "AAABBB"}`. -/
theorem relay_concatenates_fragments_in_order (fs : List String) :
    (relayRun (deltaTrace fs)).outcome = some (Except.ok (strJoin fs)) ∧
    (handleRequest (some "dGVzdA==") (deltaTrace ["AAA", "BBB"])).response =
      some ⟨200, Body.audioBody "AAABBB"⟩ := by
  constructor
  · have hfold :
        relayRun ([WireEvent.wsOpen, WireEvent.msg Event.sessionCreated] ++
          fs.map (fun f => WireEvent.msg (Event.audioDelta (some f)))) =
        { chunks := [] ++ fs.filter (fun f => !(f == "")), isSessionConfigured := true,
          hasReceivedData := true, timerActive := false, wsState := ReadyState.OPEN,
          closeCode := none, sent := configMessages, outcome := none } := by
      unfold relayRun
      rw [List.foldl_append]
      exact relay_delta_fold fs []
    have htrace : deltaTrace fs =
        ([WireEvent.wsOpen, WireEvent.msg Event.sessionCreated] ++
          fs.map (fun f => WireEvent.msg (Event.audioDelta (some f)))) ++
        [WireEvent.msg Event.responseDone] := by
      simp [deltaTrace]
    rw [htrace]
    unfold relayRun at hfold ⊢
    rw [List.foldl_append, hfold]
    simp only [List.foldl_cons, List.foldl_nil, relayStep, List.nil_append]
    simp [wsClose, settle, strJoin_filter_ne_empty]
  · decide

/-- C1: the watchdog is claimed to reject every exchange in which the
service sends no data within the window, whether the socket is still
connecting or has opened and stayed silent.  The code violates this:
the `open` handler clears the watchdog timer, so once the socket has
opened the timer can no longer fire, the `OPEN && !hasReceivedData`
branch of the timer callback is unreachable, and a session that opens
and then stays silent leaves the promise pending forever — the HTTP
request never receives a response.  This theorem exhibits the hang
(first two conjuncts: outcome still pending after the timer would have
fired, and still pending after any further timer/close events; third
conjunct: the HTTP handler never answers) and, for contrast, shows that
the still-connecting case does reject with the timeout message as
claimed (last conjunct). -/
theorem relay_watchdog_silent_open_hangs :
    (relayRun [WireEvent.wsOpen, WireEvent.timerFire]).outcome = none ∧
    (relayRun [WireEvent.wsOpen, WireEvent.timerFire, WireEvent.timerFire,
      WireEvent.wsClosed]).outcome = none ∧
    (handleRequest (some "QQ==") [WireEvent.wsOpen, WireEvent.timerFire]).response = none ∧
    (relayRun [WireEvent.timerFire]).outcome =
      some (Except.error "Timeout: OpenAI Realtime API connection or initial data timeout") := by
  refine ⟨rfl, rfl, ?_, rfl⟩
  decide

/-! ### C4 -/

/-- C4: once a relay exchange has settled (resolved after
`response.done` or rejected with an error), no later event — a watchdog
timer firing, a socket-close event, a further error event, or anything
else — changes the already-produced result. -/
theorem relay_settles_once (events more : List WireEvent) (o : Except String String)
    (h : (relayRun events).outcome = some o) :
    (relayRun (events ++ more)).outcome = some o := by
  unfold relayRun at h ⊢
  rw [List.foldl_append]
  exact relayFold_settled more _ o h

/-! ### C5 -/

/-- C5: when the service emits an explicit error event (`error` or
`session.error`) carrying a non-empty message, the relay rejects with
the upstream message and the HTTP request resolves as HTTP 500 whose
`details` field carries the upstream message; the socket is closed with
the abnormal closure code 1011.  When the message field is the empty
string (falsy in JS) and no reason is present, the code falls back to
`"Unknown API error"` — the last conjunct records that fallback. -/
theorem relay_error_event_rejects (m a : String) (hm : ¬ m = "") (ha : ¬ a = "") :
    (handleRequest (some a) (errTrace m)).response =
      some ⟨500, Body.errorDetails "Erro interno ao processar áudio"
        ("OpenAI API Error: " ++ m)⟩ ∧
    (relayRun (errTrace m)).outcome =
      some (Except.error ("OpenAI API Error: " ++ m)) ∧
    (relayRun (errTrace m)).closeCode = some 1011 ∧
    (relayRun (errTrace "")).outcome =
      some (Except.error "OpenAI API Error: Unknown API error") := by
  have hrun : relayRun (errTrace m) =
      { chunks := [], isSessionConfigured := true, hasReceivedData := true,
        timerActive := false, wsState := ReadyState.CLOSED, closeCode := some 1011,
        sent := configMessages, outcome := some (Except.error ("OpenAI API Error: " ++ m)) } := by
    simp [relayRun, errTrace, relayStep, relayInit, wsClose, settle, jsStringOr, hm,
      configMessages]
  refine ⟨?_, ?_, ?_, ?_⟩
  · simp [handleRequest, ha, hrun]
  · rw [hrun]
  · rw [hrun]
  · rfl

/-- Witness for C5: an `error` event with message `"rate_limited"`
yields HTTP 500 with a body containing `"rate_limited"` and the socket
closed with code 1011. -/
theorem relay_error_event_rejects_witness :
    (handleRequest (some "QQ==") (errTrace "rate_limited")).response =
      some ⟨500, Body.errorDetails "Erro interno ao processar áudio"
        ("OpenAI API Error: " ++ "rate_limited")⟩ ∧
    (relayRun (errTrace "rate_limited")).outcome =
      some (Except.error ("OpenAI API Error: " ++ "rate_limited")) ∧
    (relayRun (errTrace "rate_limited")).closeCode = some 1011 ∧
    (relayRun (errTrace "")).outcome =
      some (Except.error "OpenAI API Error: Unknown API error") :=
  relay_error_event_rejects "rate_limited" "QQ==" (by decide) (by decide)

/-! ### C6 -/

/-- C6: a POST whose body lacks the `audio` field, or whose `audio` is
the empty string, is answered with HTTP 400 and an error body without
opening any relay session; when a relay session is opened and the
exchange rejects with message `m`, the response is HTTP 500 with the
`{error, details}` body carrying `m`. -/
theorem route_validates_audio (events : List WireEvent) (a m : String) :
    handleRequest none events =
      { response := some ⟨400, Body.errorBody "Dados de áudio não fornecidos"⟩
        relayOpened := false } ∧
    handleRequest (some "") events =
      { response := some ⟨400, Body.errorBody "Dados de áudio não fornecidos"⟩
        relayOpened := false } ∧
    (¬ a = "" → (relayRun events).outcome = some (Except.error m) →
      handleRequest (some a) events =
        { response := some ⟨500, Body.errorDetails "Erro interno ao processar áudio" m⟩
          relayOpened := true }) := by
  refine ⟨rfl, rfl, ?_⟩
  intro ha hm
  simp [handleRequest, ha, hm]

/-- Witness for C6: a socket error makes the route answer HTTP 500
with the `{error, details}` body. -/
theorem route_validates_audio_witness :
    handleRequest (some "QQ==") [WireEvent.wsError "boom"] =
      { response := some ⟨500, Body.errorDetails "Erro interno ao processar áudio" "boom"⟩
        relayOpened := true } :=
  (route_validates_audio [WireEvent.wsError "boom"] "QQ==" "boom").2.2 (by decide) rfl

/-- Witness for C4: a resolved exchange keeps its payload across a
subsequent timer firing, socket close, upstream error event and socket
error. -/
theorem relay_settles_once_witness :
    (relayRun ([WireEvent.wsOpen, WireEvent.msg Event.sessionCreated,
        WireEvent.msg (Event.audioDelta (some "AAA")), WireEvent.msg Event.responseDone] ++
      [WireEvent.timerFire, WireEvent.wsClosed,
        WireEvent.msg (Event.errorEvent (some "late") none),
        WireEvent.wsError "late socket error"])).outcome =
      some (Except.ok "AAA") :=
  relay_settles_once _ _ _ rfl

/-! ### Helper lemmas about the segmenter step -/

/-- While the busy flag is set, `onaudioprocess` returns immediately. -/
lemma segStep_speaking (s : SegState) (t : ℤ) (f : List ℚ) (h : s.isSpeaking = true) :
    segStep s t f = s := by
  simp [segStep, h]

/-- While the busy flag is set, any whole frame sequence is dropped. -/
lemma segFold_speaking (l : List (ℤ × List ℚ)) (s : SegState) (h : s.isSpeaking = true) :
    l.foldl (fun s p => segStep s p.1 p.2) s = s := by
  induction l with
  | nil => rfl
  | cons p l ih => rw [List.foldl_cons, segStep_speaking s p.1 p.2 h, ih]

/-- The RMS test fails on the empty frame. -/
lemma frameIsSpeech_nil : frameIsSpeech ([] : List ℚ) = false := by
  norm_num [frameIsSpeech, sumSquares, SILENCE_THRESHOLD]

/-- A frame classified as speech is non-empty. -/
lemma frameIsSpeech_ne_nil {f : List ℚ} (h : frameIsSpeech f = true) : f ≠ [] := by
  intro hf
  rw [hf, frameIsSpeech_nil] at h
  exact absurd h Bool.false_ne_true

/-- A silent frame arriving on an empty accumulation buffer leaves the
state unchanged. -/
lemma segStep_silent_empty (s : SegState) (t : ℤ) (f : List ℚ)
    (hf : frameIsSpeech f = false) (hb : s.recordingBuffer = []) :
    segStep s t f = s := by
  simp [segStep, hf, hb]

/-- A fully silent trace starting from an empty buffer leaves the
state unchanged. -/
lemma segFold_silent (trace : List (ℤ × List ℚ)) (s : SegState)
    (hb : s.recordingBuffer = [])
    (h : ∀ p ∈ trace, frameIsSpeech p.2 = false) :
    trace.foldl (fun s p => segStep s p.1 p.2) s = s := by
  induction trace with
  | nil => rfl
  | cons p l ih =>
    rw [List.foldl_cons, segStep_silent_empty s p.1 p.2 (h p (List.mem_cons_self p l)) hb,
      ih (fun q hq => h q (List.mem_cons_of_mem p hq))]

/-- Running a run of speech frames appends them, in order, to the
accumulation buffer, and moves `lastSpeechTime` to the timestamp of the
last of them. -/
lemma segFold_speech (sp : List (ℤ × List ℚ)) (s : SegState)
    (hsk : s.isSpeaking = false) (hls : s.isListening = true)
    (hsp : ∀ p ∈ sp, frameIsSpeech p.2 = true) :
    sp.foldl (fun s p => segStep s p.1 p.2) s =
      { s with recordingBuffer := s.recordingBuffer ++ sp.map Prod.snd,
               lastSpeechTime := lastTimeD s.lastSpeechTime sp } := by
  induction sp generalizing s with
  | nil => simp [lastTimeD]
  | cons p sp ih =>
    have hp : frameIsSpeech p.2 = true := hsp p (List.mem_cons_self p sp)
    have hstep : segStep s p.1 p.2 =
        { s with recordingBuffer := s.recordingBuffer ++ [p.2], lastSpeechTime := p.1 } := by
      simp [segStep, hsk, hls, hp]
    rw [List.foldl_cons, hstep,
      ih { s with recordingBuffer := s.recordingBuffer ++ [p.2], lastSpeechTime := p.1 }
        hsk hls (fun q hq => hsp q (List.mem_cons_of_mem p hq))]
    simp [lastTimeD, List.append_assoc]

/-- Running silent frames over a non-empty buffer: as soon as one of
them arrives more than `SPEECH_TIMEOUT_MS` after the last speech, the
buffered frames are concatenated and emitted exactly once, the buffer
is cleared, and the busy flag is set; every later frame is dropped. -/
lemma segFold_silence (sl : List (ℤ × List ℚ)) (s : SegState)
    (hsk : s.isSpeaking = false) (hls : s.isListening = true)
    (hsl : ∀ p ∈ sl, frameIsSpeech p.2 = false)
    (hlen : 0 < s.recordingBuffer.flatten.length)
    (htrig : ∃ p ∈ sl, SPEECH_TIMEOUT_MS < p.1 - s.lastSpeechTime) :
    sl.foldl (fun s p => segStep s p.1 p.2) s =
      { s with recordingBuffer := [],
               emitted := s.emitted ++ [s.recordingBuffer.flatten],
               isSpeaking := true } := by
  induction sl with
  | nil =>
    rcases htrig with ⟨p, hp, _⟩
    exact absurd hp (List.not_mem_nil p)
  | cons p sl ih =>
    have hbuf : 0 < s.recordingBuffer.length := by
      cases hb : s.recordingBuffer with
      | nil => rw [hb] at hlen; simp at hlen
      | cons _ _ => simp [hb]
    have hps : frameIsSpeech p.2 = false := hsl p (List.mem_cons_self p sl)
    by_cases htp : SPEECH_TIMEOUT_MS < p.1 - s.lastSpeechTime
    · have hlen' : (List.map List.length s.recordingBuffer).sum ≠ 0 := by
        rw [← List.length_flatten]
        omega
      have hstep : segStep s p.1 p.2 =
          { s with recordingBuffer := [],
                   emitted := s.emitted ++ [s.recordingBuffer.flatten],
                   isSpeaking := true } := by
        simp [segStep, hsk, hls, hps, htp, hbuf, hlen, hlen']
      rw [List.foldl_cons, hstep]
      exact segFold_speaking sl _ rfl
    · have hstep : segStep s p.1 p.2 = s := by
        simp [segStep, hsk, hls, hps, htp]
      rw [List.foldl_cons, hstep]
      apply ih (fun q hq => hsl q (List.mem_cons_of_mem p hq))
      rcases htrig with ⟨q, hq, hqt⟩
      rcases List.mem_cons.mp hq with rfl | hq'
      · exact absurd hqt htp
      · exact ⟨q, hq', hqt⟩

/-! ### C7 -/

/-- C7: for every non-empty run of above-threshold frames followed by
silence frames among which one arrives more than the trailing-silence
duration after the last speech frame, the segmenter emits exactly one
utterance; it is the in-order concatenation of the above-threshold
frames, so its total sample length equals the sum of their lengths
(trailing-window silence frames are never appended to the buffer by
the source, hence are not included). -/
theorem segmenter_emits_single_utterance (sp sl : List (ℤ × List ℚ)) (hne : sp ≠ [])
    (hsp : ∀ p ∈ sp, frameIsSpeech p.2 = true)
    (hsl : ∀ p ∈ sl, frameIsSpeech p.2 = false)
    (htrig : ∃ p ∈ sl, SPEECH_TIMEOUT_MS < p.1 - lastTimeD 0 sp) :
    (segRun (sp ++ sl)).emitted = [(sp.map Prod.snd).flatten] ∧
    (sp.map Prod.snd).flatten.length = (sp.map (fun p => p.2.length)).sum := by
  have h1 : segRun (sp ++ sl) = sl.foldl (fun s p => segStep s p.1 p.2)
      { initSeg with recordingBuffer := sp.map Prod.snd, lastSpeechTime := lastTimeD 0 sp } := by
    unfold segRun
    rw [List.foldl_append, segFold_speech sp initSeg rfl rfl hsp]
    rfl
  have hlen : 0 < ((sp.map Prod.snd).flatten).length := by
    obtain ⟨p, sp', rfl⟩ := List.exists_cons_of_ne_nil hne
    have hpne := frameIsSpeech_ne_nil (hsp p (List.mem_cons_self p sp'))
    have hflat : (((p :: sp').map Prod.snd).flatten) = p.2 ++ ((sp'.map Prod.snd).flatten) := by
      simp
    rw [hflat, List.length_append]
    exact Nat.lt_of_lt_of_le (List.length_pos.mpr hpne) (Nat.le_add_right _ _)
  have h2 := segFold_silence sl
      { initSeg with recordingBuffer := sp.map Prod.snd, lastSpeechTime := lastTimeD 0 sp }
      rfl rfl hsl hlen htrig
  refine ⟨?_, ?_⟩
  · rw [h1, h2]
    rfl
  · rw [List.length_flatten, List.map_map]
    rfl

/-- Witness for C7: two speech frames of one and two samples followed
by a silence frame past the timeout window yield exactly one emitted
utterance of three samples. -/
theorem segmenter_emits_single_utterance_witness :
    (segRun ([((0 : ℤ), [(1 : ℚ)]), (100, [1, 1])] ++ [((2000 : ℤ), [(0 : ℚ)])])).emitted =
      [([((0 : ℤ), [(1 : ℚ)]), (100, [1, 1])].map Prod.snd).flatten] ∧
    (([((0 : ℤ), [(1 : ℚ)]), (100, [1, 1])].map Prod.snd).flatten).length =
      ([((0 : ℤ), [(1 : ℚ)]), (100, [1, 1])].map (fun p => p.2.length)).sum :=
  segmenter_emits_single_utterance _ _ (by simp)
    (by norm_num [frameIsSpeech, sumSquares, SILENCE_THRESHOLD])
    (by norm_num [frameIsSpeech, sumSquares, SILENCE_THRESHOLD])
    (by norm_num [lastTimeD, SPEECH_TIMEOUT_MS])

/-! ### C8 -/

/-- C8: every frame arriving while the busy (`isSpeaking`) flag is set
is dropped entirely: the state — accumulation buffer, last-speech time
and emitted utterances — is unchanged, regardless of the frame's
amplitude. -/
theorem segmenter_drops_frames_while_speaking (s : SegState) (t : ℤ) (f : List ℚ)
    (h : s.isSpeaking = true) : segStep s t f = s := by
  simp [segStep, h]

/-- Witness for C8: a loud frame arriving while busy changes nothing. -/
theorem segmenter_drops_frames_while_speaking_witness :
    segStep { recordingBuffer := [], lastSpeechTime := 0, isListening := true,
              isSpeaking := true, emitted := [] } 5 [1, 1] =
      { recordingBuffer := [], lastSpeechTime := 0, isListening := true,
        isSpeaking := true, emitted := [] } :=
  segmenter_drops_frames_while_speaking _ 5 [1, 1] rfl

/-! ### C9 -/

/-- C9: a trace in which every frame is below the silence threshold
never emits an utterance and leaves the accumulation buffer empty. -/
theorem segmenter_silence_never_emits (trace : List (ℤ × List ℚ))
    (h : ∀ p ∈ trace, frameIsSpeech p.2 = false) :
    (segRun trace).emitted = [] ∧ (segRun trace).recordingBuffer = [] := by
  unfold segRun
  rw [segFold_silent trace initSeg rfl h]
  exact ⟨rfl, rfl⟩

/-- Witness for C9: two quiet frames (one exactly zero, one just below
threshold), far apart in time, emit nothing. -/
theorem segmenter_silence_never_emits_witness :
    (segRun [((0 : ℤ), [(0 : ℚ)]), (2000, [1/200])]).emitted = [] ∧
    (segRun [((0 : ℤ), [(0 : ℚ)]), (2000, [1/200])]).recordingBuffer = [] :=
  segmenter_silence_never_emits _
    (by norm_num [frameIsSpeech, sumSquares, SILENCE_THRESHOLD])

/-! ### C10 -/

/-- Truncation toward zero of a value in `[-32768, 32767]` stays in
that range. -/
lemma truncQ_bounds (v : ℚ) (h1 : -32768 ≤ v) (h2 : v ≤ 32767) :
    -32768 ≤ truncQ v ∧ truncQ v ≤ 32767 := by
  unfold truncQ
  split_ifs with hv
  · refine ⟨?_, ?_⟩
    · have h := Int.ceil_le_ceil (α := ℚ) h1
      rwa [show Int.ceil (-32768 : ℚ) = (-32768 : ℤ) by
        rw [show (-32768 : ℚ) = ((-32768 : ℤ) : ℚ) by norm_num, Int.ceil_intCast]] at h
    · have h0 : Int.ceil v ≤ 0 := Int.ceil_le.mpr (by exact_mod_cast le_of_lt hv)
      omega
  · refine ⟨?_, ?_⟩
    · have h0 : (0 : ℤ) ≤ Int.floor v := Int.le_floor.mpr (by exact_mod_cast not_lt.mp hv)
      omega
    · have h := Int.floor_le_floor (α := ℚ) h2
      rwa [show Int.floor (32767 : ℚ) = (32767 : ℤ) by
        rw [show (32767 : ℚ) = ((32767 : ℤ) : ℚ) by norm_num, Int.floor_intCast]] at h

/-- The clamp-then-scale step lands in `[-32768, 32767]`. -/
lemma pcmClampScale_bounds (x : ℚ) :
    -32768 ≤ pcmClampScale x ∧ pcmClampScale x ≤ 32767 := by
  have hs1 : (-1 : ℚ) ≤ max (-1) (min 1 x) := le_max_left _ _
  have hs2 : max (-1 : ℚ) (min 1 x) ≤ 1 := max_le (by norm_num) (min_le_left _ _)
  simp only [pcmClampScale]
  split_ifs with hneg
  · constructor <;> nlinarith
  · constructor <;> nlinarith

/-- On in-range values the `Int16Array` wrap is the identity. -/
lemma toInt16_eq_truncQ (q : ℚ) (h1 : -32768 ≤ truncQ q) (h2 : truncQ q ≤ 32767) :
    toInt16 q = truncQ q := by
  unfold toInt16
  omega

/-- C10: every element produced by `float32To16BitPCM` lies in the
signed 16-bit range `[-32768, 32767]`: each sample is clamped to
`[-1, 1]` and scaled by `0x8000` (negative) or `0x7FFF` (non-negative),
so the value stored into the `Int16Array` equals plain truncation —
the modular wrap of the 16-bit store never engages and out-of-range
float samples cannot overflow the PCM encoding. -/
theorem pcm_conversion_in_range (a : List ℚ) :
    (∀ y ∈ float32To16BitPCM a, -32768 ≤ y ∧ y ≤ 32767) ∧
    float32To16BitPCM a = a.map (fun x => truncQ (pcmClampScale x)) := by
  have hb : ∀ x : ℚ, -32768 ≤ truncQ (pcmClampScale x) ∧ truncQ (pcmClampScale x) ≤ 32767 :=
    fun x => truncQ_bounds _ (pcmClampScale_bounds x).1 (pcmClampScale_bounds x).2
  constructor
  · intro y hy
    obtain ⟨x, _, rfl⟩ := List.mem_map.mp hy
    rw [toInt16_eq_truncQ _ (hb x).1 (hb x).2]
    exact hb x
  · unfold float32To16BitPCM
    exact List.map_congr_left fun x _ => toInt16_eq_truncQ _ (hb x).1 (hb x).2

/-- Witness for C10: the sample `5/2` clamps to `1`, scales to `32767`,
and the produced element is in range. -/
theorem pcm_conversion_in_range_witness :
    -32768 ≤ (32767 : ℤ) ∧ (32767 : ℤ) ≤ 32767 :=
  (pcm_conversion_in_range [5/2]).1 32767
    (by norm_num [float32To16BitPCM, pcmClampScale, toInt16, truncQ])
